import Mathlib

/-!
Shallow embedding of the kryonex-mcp task/workflow orchestration core
(src/system/taskManager.mjs, eventBus.mjs, toolRunner.mjs, validator
factories, workflowEngine.mjs), together with theorems settling the
frozen specification claims about it.

Conventions used throughout:
* JS timestamps (`Date.now()` / `toISOString()`) are modelled by a `Nat`
  clock carried in the state and bumped on each mutation.
* `crypto.randomUUID()` is modelled by a fresh-id counter in the state.
* `async`/`await` code with no interleaving relevant to a claim is
  modelled as a sequential function; observable effects (durable-store
  writes, event emissions) are collected in an ordered action trace.
* fallible JS code (`throw`) is modelled with `Except String`, carrying
  the same message strings the source builds.
-/

namespace Kryonex

/-- Task/Step status vocabulary of src/system/taskManager.mjs
(`pending | running | completed | failed | cancelled`). -/
inductive TStatus
  | pending
  | running
  | completed
  | failed
  | cancelled
deriving DecidableEq, Repr

/-- A step object as built by `TaskManager.addStep` (taskManager.mjs):
id, description, status, startedAt/finishedAt, meta, result, error,
createdAt.  `α` is the opaque type of result/meta payloads. -/
structure Step (α : Type) where
  id : Nat
  description : String
  status : TStatus
  startedAt : Option Nat
  finishedAt : Option Nat
  meta : Option α
  result : Option α
  error : Option String
  createdAt : Nat
deriving DecidableEq, Repr

/-- A task object as built by `TaskManager.createTask` (taskManager.mjs). -/
structure Task (α : Type) where
  id : Nat
  parent : Option Nat
  title : String
  status : TStatus
  steps : List (Step α)
  meta : Option α
  result : Option α
  error : Option String
  createdAt : Nat
  updatedAt : Nat
deriving DecidableEq, Repr

/-- State of a TaskManager instance: the in-memory `Map` of tasks
(insertion-ordered association list, mirroring a JS `Map`), the fresh-id
counter, the clock, and whether a durable store (`db`) is configured. -/
structure TMState (α : Type) where
  tasks : List (Nat × Task α)
  counter : Nat
  clock : Nat
  dbConfigured : Bool
deriving DecidableEq, Repr

/-- Observable actions of TaskManager operations, in execution order:
durable-store writes (`db.saveTask` / `db.updateTask`) and event
emissions (`eventBus.emitPersisted`). -/
inductive TMAction
  | dbSaveTask (id : Nat)
  | dbUpdateTask (id : Nat)
  | emit (name : String)
deriving DecidableEq, Repr

/-- `Map.set` on the task map: replace in place if the key exists,
append otherwise. -/
def setPair {α : Type} : List (Nat × Task α) → Nat → Task α → List (Nat × Task α)
  | [], i, t => [(i, t)]
  | (j, u) :: rest, i, t =>
    if i = j then (i, t) :: rest else (j, u) :: setPair rest i t

/-- `Map.get` on the task map. -/
def findTask {α : Type} : List (Nat × Task α) → Nat → Option (Task α)
  | [], _ => none
  | (j, u) :: rest, i => if i = j then some u else findTask rest i

/-- `TaskManager.getTask(id)` — `this.tasks.get(id) || null`. -/
def getTask {α : Type} (s : TMState α) (id : Nat) : Option (Task α) :=
  findTask s.tasks id

/-- `TaskManager.updateTask(task)`: stamp `updatedAt`, store in the map,
write to the durable store when configured (failure swallowed), then
emit `"task.updated"`. -/
def updateTask {α : Type} (s : TMState α) (t : Task α) :
    TMState α × List TMAction :=
  let t1 := { t with updatedAt := s.clock }
  ({ s with tasks := setPair s.tasks t.id t1, clock := s.clock + 1 },
   (if s.dbConfigured then [TMAction.dbUpdateTask t.id] else [])
     ++ [TMAction.emit "task.updated"])

/-- `TaskManager.createTask({title, parent, meta})`: build a fresh
pending task, store it, write `db.saveTask` when configured, emit
`"task.created"`.  Returns (new state, action trace, new id). -/
def createTask {α : Type} (s : TMState α) (title : String)
    (parent : Option Nat) (meta : Option α) :
    TMState α × List TMAction × Nat :=
  let id := s.counter
  let task : Task α :=
    { id := id,
      parent := parent,
      title := if title = "" then "untitled" else title,
      status := .pending,
      steps := [],
      meta := meta,
      result := none,
      error := none,
      createdAt := s.clock,
      updatedAt := s.clock }
  ({ s with
      tasks := setPair s.tasks id task,
      counter := s.counter + 1,
      clock := s.clock + 1 },
   (if s.dbConfigured then [TMAction.dbSaveTask id] else [])
     ++ [TMAction.emit "task.created"],
   id)

/-- `TaskManager.setStatus(id, status)`: throws `Task not found` if the
id is unknown, otherwise sets the status unconditionally and goes
through `updateTask`. -/
def setStatus {α : Type} (s : TMState α) (id : Nat) (st : TStatus) :
    Except String (TMState α × List TMAction) :=
  match findTask s.tasks id with
  | none => .error ("Task not found: " ++ toString id)
  | some t => .ok (updateTask s { t with status := st })

/-- `TaskManager.addStep(taskId, step)`: append a fresh pending step,
persist via `updateTask`, then emit `"task.step.added"`.  Returns the
new step's id as well. -/
def addStep {α : Type} (s : TMState α) (taskId : Nat)
    (description : String) (st : TStatus) (meta : Option α) :
    Except String (TMState α × List TMAction × Nat) :=
  match findTask s.tasks taskId with
  | none => .error ("Task not found: " ++ toString taskId)
  | some t =>
    let sid := s.counter
    let stepObj : Step α :=
      { id := sid,
        description := if description = "" then "step" else description,
        status := st, startedAt := none, finishedAt := none,
        meta := meta, result := none, error := none,
        createdAt := s.clock }
    let s1 := { s with counter := s.counter + 1 }
    let out := updateTask s1 { t with steps := t.steps ++ [stepObj] }
    .ok (out.1, out.2 ++ [TMAction.emit "task.step.added"], sid)

/-- `TaskManager.startStep(taskId, stepId)`: mark the step running with
a start timestamp, persist via `updateTask`, emit `"task.step.started"`. -/
def startStep {α : Type} (s : TMState α) (taskId stepId : Nat) :
    Except String (TMState α × List TMAction) :=
  match findTask s.tasks taskId with
  | none => .error ("Task not found: " ++ toString taskId)
  | some t =>
    match t.steps.find? (fun x => x.id == stepId) with
    | none => .error ("Step not found: " ++ toString stepId)
    | some _ =>
      let steps := t.steps.map (fun x =>
        if x.id == stepId then
          { x with status := TStatus.running, startedAt := some s.clock }
        else x)
      let out := updateTask s { t with steps := steps }
      .ok (out.1, out.2 ++ [TMAction.emit "task.step.started"])

/-- `TaskManager.completeStep(taskId, stepId, result)`. -/
def completeStep {α : Type} (s : TMState α) (taskId stepId : Nat)
    (result : Option α) :
    Except String (TMState α × List TMAction) :=
  match findTask s.tasks taskId with
  | none => .error ("Task not found: " ++ toString taskId)
  | some t =>
    match t.steps.find? (fun x => x.id == stepId) with
    | none => .error ("Step not found: " ++ toString stepId)
    | some _ =>
      let steps := t.steps.map (fun x =>
        if x.id == stepId then
          { x with
            status := TStatus.completed,
            finishedAt := some s.clock,
            result := result }
        else x)
      let out := updateTask s { t with steps := steps }
      .ok (out.1, out.2 ++ [TMAction.emit "task.step.completed"])

/-- `TaskManager.failStep(taskId, stepId, error)`. -/
def failStep {α : Type} (s : TMState α) (taskId stepId : Nat)
    (err : String) :
    Except String (TMState α × List TMAction) :=
  match findTask s.tasks taskId with
  | none => .error ("Task not found: " ++ toString taskId)
  | some t =>
    match t.steps.find? (fun x => x.id == stepId) with
    | none => .error ("Step not found: " ++ toString stepId)
    | some _ =>
      let steps := t.steps.map (fun x =>
        if x.id == stepId then
          { x with
            status := TStatus.failed,
            finishedAt := some s.clock,
            error := some err }
        else x)
      let out := updateTask s { t with steps := steps }
      .ok (out.1, out.2 ++ [TMAction.emit "task.step.failed"])

/-- `TaskManager.completeTask(id, result)`: unconditionally set status
`completed` and the result, persist via `updateTask`, emit
`"task.completed"`. -/
def completeTask {α : Type} (s : TMState α) (id : Nat)
    (result : Option α) :
    Except String (TMState α × List TMAction) :=
  match findTask s.tasks id with
  | none => .error ("Task not found: " ++ toString id)
  | some t =>
    let out := updateTask s
      { t with status := .completed, result := result, updatedAt := s.clock }
    .ok (out.1, out.2 ++ [TMAction.emit "task.completed"])

/-- `TaskManager.failTask(id, error)`: unconditionally set status
`failed` and the error string, persist via `updateTask`, emit
`"task.failed"`. -/
def failTask {α : Type} (s : TMState α) (id : Nat) (err : String) :
    Except String (TMState α × List TMAction) :=
  match findTask s.tasks id with
  | none => .error ("Task not found: " ++ toString id)
  | some t =>
    let out := updateTask s
      { t with status := .failed, error := some err, updatedAt := s.clock }
    .ok (out.1, out.2 ++ [TMAction.emit "task.failed"])

/-- The transition relation the specification claims for task statuses:
pending→running, running→completed, running→failed, and
any-non-terminal→cancelled. -/
def allowedTransition : TStatus → TStatus → Bool
  | .pending, .running => true
  | .running, .completed => true
  | .running, .failed => true
  | .pending, .cancelled => true
  | .running, .cancelled => true
  | _, _ => false

theorem findTask_setPair {α : Type} (l : List (Nat × Task α)) (i : Nat)
    (t : Task α) : findTask (setPair l i t) i = some t := by
  induction l with
  | nil => simp [setPair, findTask]
  | cons hd tl ih =>
    obtain ⟨j, u⟩ := hd
    by_cases h : i = j
    · simp [setPair, findTask, h]
    · simp [setPair, findTask, h, ih]

/-! ## EventBus (src/system/eventBus.mjs)

`EventBus extends EventEmitter`.  Node's `EventEmitter.emit` invokes the
listeners registered for the event name synchronously, in registration
order; a listener that throws synchronously makes `emit` itself throw at
that point, so the listeners registered after it are not invoked.
`emitPersisted` wraps both the persistence block and the `this.emit`
call in try/catch, so neither a `db.saveEvent` failure nor a throwing
listener ever makes `emitPersisted` itself fail. -/

/-- Whether an `Except` computation succeeded. -/
def exOk {ε ρ : Type} : Except ε ρ → Bool
  | .ok _ => true
  | .error _ => false

/-- Node `EventEmitter.emit` over the listeners registered for one event
name: call each in order; the first synchronous throw propagates and the
remaining listeners are skipped.  Returns the per-listener invoked flags
(in registration order) and the outcome of the `emit` call. -/
def eeEmit {π : Type} : List (π → Except String Unit) → π →
    List Bool × Except String Unit
  | [], _ => ([], .ok ())
  | f :: fs, p =>
    match f p with
    | .error e => (true :: fs.map (fun _ => false), .error e)
    | .ok _ =>
      let r := eeEmit fs p
      (true :: r.1, r.2)

/-- Index of the first listener that throws, if any. -/
def firstThrow {π : Type} : List (π → Except String Unit) → π → Option Nat
  | [], _ => none
  | f :: fs, p =>
    if exOk (f p) then (firstThrow fs p).map (· + 1) else some 0

/-- Delivery pattern of one emission: every listener up to and including
the first throwing one is invoked; the listeners after it are not. -/
def deliveredSpec {π : Type} (subs : List (π → Except String Unit))
    (p : π) : List Bool :=
  match firstThrow subs p with
  | none => List.replicate subs.length true
  | some k =>
    List.replicate (k + 1) true ++ List.replicate (subs.length - (k + 1)) false

/-- Observable outcome of one `emitPersisted` call: whether the
`db.saveEvent` / `semanticStore.saveToolTranscript` attempts succeeded
(`none` when the store is not configured), and which subscribers were
invoked. -/
structure EmitOut where
  dbSaved : Option Bool
  transcriptSaved : Option Bool
  delivered : List Bool
deriving DecidableEq, Repr

/-- `EventBus.emitPersisted(eventName, payload)`: best-effort persist
(failures caught and logged), then `this.emit` wrapped in try/catch (a
listener throw is caught and logged).  `db`/`ss` are the outcomes of the
configured stores' save calls (`none` = store not configured). -/
def emitPersisted {π : Type} (db ss : Option (Except String Unit))
    (subs : List (π → Except String Unit)) (p : π) :
    Except String EmitOut :=
  let dbSaved := db.map exOk
  let transcriptSaved := ss.map exOk
  let delivered := (eeEmit subs p).1
  .ok { dbSaved := dbSaved, transcriptSaved := transcriptSaved,
        delivered := delivered }

/-! ## ToolRunner (src/system/toolRunner.mjs)

`call(toolHandlers, toolName, args, context, options)` modelled over an
opaque argument type `γ` and result type `ρ`.  The validator and
rectifier are the opaque collaborator functions the runner is
constructed with; `db`/`transcriptStore` say whether those stores are
configured and whether their save call succeeds (failures are swallowed
by `_persistRun` / `_saveTranscript`). -/

/-- Result object of `validator.validateToolCall`: `accepted` may be a
JS boolean or absent (`undefined`).  The runner treats only a literal
`accepted === false` (or a falsy result object) as rejection. -/
structure VRes where
  accepted : Option Bool
  reason : Option String
deriving DecidableEq, Repr

/-- Result object of `rectifier.rectify`: the proposal's `args` field
(`none` models an absent/falsy `args`). -/
structure RectRes (γ : Type) where
  args : Option γ

/-- Observable actions of one `ToolRunner.call`, in order: event
emissions, the `db.saveToolRun` attempt (with the ToolRun record's
args/result/error fields and whether the write succeeded) and the
transcript save attempt. -/
inductive TRAction (γ ρ : Type)
  | emit (name : String)
  | persistRun (args : γ) (result : Option ρ) (error : Option String) (ok : Bool)
  | saveTranscript (args : γ) (ok : Bool)

/-- `v && v.reason ? v.reason : "rejected"` (an empty string is falsy). -/
def reasonStr (v : Option VRes) : String :=
  match v with
  | some r =>
    match r.reason with
    | some sr => if sr = "" then "rejected" else sr
    | none => "rejected"
  | none => "rejected"

/-- `!v || v.accepted === false`: the runner's rejection test on the
validator's result. -/
def rejectedBy (v : Option VRes) : Bool :=
  match v with
  | none => true
  | some r => r.accepted == some false

/-- The validation phase of `ToolRunner.call` (toolRunner.mjs lines
32-39): run the validator if configured; on rejection consult the
rectifier; a proposal with an `args` field replaces the args wholesale,
anything else throws.  Returns the args execution proceeds with. -/
def validatePhase {γ : Type} (validator : Option (String → γ → Option VRes))
    (rectifier : Option (String → γ → Option (RectRes γ)))
    (toolName : String) (args : γ) : Except String γ :=
  match validator with
  | none => .ok args
  | some V =>
    let v := V toolName args
    if rejectedBy v then
      match rectifier with
      | some R =>
        match R toolName args with
        | some rect =>
          match rect.args with
          | some a => .ok a
          | none =>
            .error ("Tool call rejected by validator and rectifier could not fix: "
              ++ reasonStr v)
        | none =>
          .error ("Tool call rejected by validator and rectifier could not fix: "
            ++ reasonStr v)
      | none => .error ("Tool call rejected by validator: " ++ reasonStr v)
    else .ok args

/-- `ToolRunner.call`: validation phase, emit `"tool.start"`, look up
the handler (throw `Unknown tool` if absent), invoke it exactly once,
build the ToolRun record (`result = null` on error, `error = message`),
persist and save the transcript (failures swallowed), then emit
`"tool.error"` and re-throw, or emit `"tool.end"` and return.

Returns (call outcome, list of handler invocations (the args of each),
ordered action trace). -/
def toolCall {γ ρ : Type} (validator : Option (String → γ → Option VRes))
    (rectifier : Option (String → γ → Option (RectRes γ)))
    (handlers : String → Option (γ → Except String ρ))
    (db transcriptStore : Option Bool)
    (toolName : String) (args : γ) :
    Except String ρ × List γ × List (TRAction γ ρ) :=
  match validatePhase validator rectifier toolName args with
  | .error e => (.error e, [], [])
  | .ok args1 =>
    match handlers toolName with
    | none => (.error ("Unknown tool: " ++ toolName), [],
        [TRAction.emit "tool.start"])
    | some handler =>
      let hres := handler args1
      let err : Option String :=
        match hres with
        | .ok _ => none
        | .error m => some m
      let resOut : Option ρ :=
        match hres with
        | .ok r => some r
        | .error _ => none
      let persistActs : List (TRAction γ ρ) :=
        match db with
        | some ok1 => [TRAction.persistRun args1 resOut err ok1]
        | none => []
      let transcriptActs : List (TRAction γ ρ) :=
        match transcriptStore with
        | some ok2 => [TRAction.saveTranscript args1 ok2]
        | none => []
      match hres with
      | .error m =>
        (.error m, [args1],
         TRAction.emit "tool.start" :: persistActs ++ transcriptActs
           ++ [TRAction.emit "tool.error"])
      | .ok r =>
        (.ok r, [args1],
         TRAction.emit "tool.start" :: persistActs ++ transcriptActs
           ++ [TRAction.emit "tool.end"])

/-- Whether an action is a `db.saveToolRun` attempt. -/
def isPersistRun {γ ρ : Type} : TRAction γ ρ → Bool
  | .persistRun _ _ _ _ => true
  | _ => false

/-! ## Validator factory (src/system/validator.mjs, `createValidator`)

Static rule checks, then an optional secondary judgment pass through the
configured LLM tool.  `oracle` is `ollamaTool.handler` applied to the
built prompt (throwing modelled with `Except.error`); `parseAccepted`
models `JSON.parse(resp.text)` followed by the
`typeof parsed.accepted === "boolean"` check — `none` whenever the text
is not valid JSON or its `accepted` field is not a boolean. -/

/-- The argument fields the validator's static rules inspect
(`sideEffect`, `allowSideEffects`, `patch`; `patch = ""` models an
absent/falsy patch). -/
structure VArgs where
  sideEffect : Bool
  allowSideEffects : Bool
  patch : String
deriving DecidableEq, Repr

/-- Response object of the LLM tool: its `text` field (`none` models a
falsy response or text). -/
structure OResp where
  text : Option String
deriving DecidableEq, Repr

/-- A parsed judgment with a boolean `accepted` field, as returned by
the secondary pass (and by the static rules). -/
structure JudgeRes where
  accepted : Bool
  reason : Option String
deriving DecidableEq, Repr

/-- The prompt `createValidator` builds for the secondary pass
(`JSON.stringify(args)` abstracted as `stringifyArgs`). -/
def judgePrompt (stringifyArgs : VArgs → String) (toolName : String)
    (args : VArgs) : String :=
  "Validator: is calling " ++ toolName ++ " with args "
    ++ stringifyArgs args
    ++ " appropriate? Return JSON with boolean accepted and reason. "

/-- `createValidator({ollamaTool}).validateToolCall({toolName, args})`:
static rules short-circuit with rejections; then the optional secondary
pass may override; every malformed outcome of that pass (handler throw,
falsy text, unparseable JSON, non-boolean `accepted`) falls through to
`accepted: true`. -/
def validateToolCall (oracle : Option (String → Except String OResp))
    (parseAccepted : String → Option JudgeRes)
    (stringifyArgs : VArgs → String)
    (toolName : String) (args : VArgs) : JudgeRes :=
  if toolName = "" then
    { accepted := false, reason := some "missing toolName" }
  else if args.sideEffect = true ∧ args.allowSideEffects ≠ true then
    { accepted := false, reason := some "sideEffect blocked" }
  else if toolName = "apply_patch" ∧ args.patch = "" then
    { accepted := false, reason := some "apply_patch requires patch" }
  else
    match oracle with
    | none => { accepted := true, reason := none }
    | some f =>
      match f (judgePrompt stringifyArgs toolName args) with
      | .error _ => { accepted := true, reason := none }
      | .ok resp =>
        match resp.text with
        | none => { accepted := true, reason := none }
        | some txt =>
          if txt = "" then { accepted := true, reason := none }
          else
            match parseAccepted txt with
            | some parsed => parsed
            | none => { accepted := true, reason := none }

/-! ## WorkflowEngine (src/system/workflowEngine.mjs)

`_waitForDeps` polls `taskManager.getTask` every 250 ms per dependency,
sequentially, against a single global start time; `_withRetry` is the
exponential-backoff retry loop; `scheduleTask` composes them (it waits
for the listed dependencies, then runs the function under
`_withRetry(fn, {retries, backoffMs: 500})` on the concurrency queue;
the queue only bounds concurrency and the returned promise settles with
the wrapper's outcome).

The time-varying task registry is modelled by `env : Nat → String →
Option TStatus` giving the status `taskManager.getTask(dep)` observes at
each millisecond timestamp (`none` = no such task).  `fuel` bounds the
number of polls; exhausting it yields the same timeout error the real
loop eventually reaches, and no theorem below depends on fuel running
out. -/

/-- The inner `while (true)` polling loop of `_waitForDeps` for one
dependency `d`, started at global time `start`, currently at time `t`:
missing task → treated as satisfied; `completed` → satisfied; `failed` →
throw; otherwise throw on timeout or sleep 250 ms and re-poll. -/
def waitDep (env : Nat → String → Option TStatus) (start timeoutMs : Nat)
    (d : String) : Nat → Nat → Except String Nat
  | fuel, t =>
    match env t d with
    | none => .ok t
    | some .completed => .ok t
    | some .failed => .error ("Dependency " ++ d ++ " failed")
    | some _ =>
      if timeoutMs < t - start then
        .error ("Timeout waiting for dependency " ++ d)
      else
        match fuel with
        | 0 => .error ("Timeout waiting for dependency " ++ d)
        | fuel1 + 1 => waitDep env start timeoutMs d fuel1 (t + 250)

/-- `_waitForDeps(deps, timeoutMs)`: poll each dependency in list order
against the shared start time, propagating the first failure. -/
def waitForDeps (env : Nat → String → Option TStatus)
    (start timeoutMs : Nat) :
    List String → Nat → Nat → Except String Nat
  | [], _, t => .ok t
  | d :: ds, fuel, t =>
    match waitDep env start timeoutMs d fuel t with
    | .error e => .error e
    | .ok t1 => waitForDeps env start timeoutMs ds fuel t1

/-- The loop of `_withRetry(fn, {retries, backoffMs})`.  `fn` is indexed
by the attempt number (0-based); `remaining` is how many further
attempts are allowed; `k` is the index of the attempt about to run.
Returns (outcome, total number of invocations, the backoff delays slept
in order: after the (k+1)-st failure the loop sleeps
`backoffMs * 2 ^ k` ms). -/
def withRetryGo {ρ : Type} (fn : Nat → Except String ρ) (backoffMs : Nat) :
    Nat → Nat → Except String ρ × Nat × List Nat
  | 0, k =>
    match fn k with
    | .ok r => (.ok r, k + 1, [])
    | .error e => (.error e, k + 1, [])
  | r1 + 1, k =>
    match fn k with
    | .ok r => (.ok r, k + 1, [])
    | .error _ =>
      let rec1 := withRetryGo fn backoffMs r1 (k + 1)
      (rec1.1, rec1.2.1, backoffMs * 2 ^ k :: rec1.2.2)

/-- `_withRetry(fn, {retries, backoffMs})`. -/
def withRetry {ρ : Type} (fn : Nat → Except String ρ)
    (backoffMs retries : Nat) : Except String ρ × Nat × List Nat :=
  withRetryGo fn backoffMs retries 0

/-- The wrapper `scheduleTask` enqueues for one unit: wait for the
listed dependencies from time 0, then run the function under
`_withRetry` with `backoffMs = 500` (the value `scheduleTask` passes).
Returns (the promise's outcome, how many times the unit's function was
invoked, the backoff delays slept). -/
def runUnit {ρ : Type} (env : Nat → String → Option TStatus)
    (timeoutMs fuel : Nat) (deps : List String)
    (fn : Nat → Except String ρ) (retries : Nat) :
    Except String ρ × Nat × List Nat :=
  match waitForDeps env 0 timeoutMs deps fuel 0 with
  | .error e => (.error e, 0, [])
  | .ok _ => withRetry fn 500 retries

/-! ## Claims about the TaskManager (C9, C2, C4) -/

/-- Claim C9: for every task id present in the TaskManager and every
result value, `completeTask(id, result)` followed by `getTask(id)`
returns a task whose status is `completed` and whose result field is
deep-equal to the result passed in.  (`hk` records the TaskManager's
keying invariant: a task is stored under its own id, as `createTask` and
`updateTask` key the map by `task.id`.) -/
theorem completeTask_getTask_roundtrip {α : Type} (s : TMState α)
    (id : Nat) (v : Option α) (t : Task α)
    (h : findTask s.tasks id = some t) (hk : t.id = id) :
    ∃ st2 acts, completeTask s id v = .ok (st2, acts) ∧
      ∃ t2, getTask st2 id = some t2 ∧ t2.status = .completed ∧
        t2.result = v := by
  subst hk
  simp only [completeTask, h]
  exact ⟨_, _, rfl, _, findTask_setPair s.tasks t.id _, rfl, rfl⟩

/-- A concrete pending task and TaskManager state used by witnesses and
counterexamples below. -/
def sampleTask (st : TStatus) : Task Nat :=
  { id := 0, parent := none, title := "t", status := st, steps := [],
    meta := none, result := none, error := none,
    createdAt := 0, updatedAt := 0 }

/-- A one-task TaskManager state holding `sampleTask st`. -/
def sampleState (st : TStatus) (db : Bool) : TMState Nat :=
  { tasks := [(0, sampleTask st)], counter := 1, clock := 1,
    dbConfigured := db }

/-- Claim C9 witness: the round trip at a concrete state. -/
theorem completeTask_getTask_roundtrip_witness :
    ∃ st2 acts,
      completeTask (sampleState .pending true) 0 (some 3) =
        .ok (st2, acts) ∧
      ∃ t2, getTask st2 0 = some t2 ∧ t2.status = .completed ∧
        t2.result = some 3 :=
  completeTask_getTask_roundtrip (sampleState .pending true) 0 (some 3)
    (sampleTask .pending) rfl rfl

/-- Whether an action is a durable-store write for the task `id`. -/
def isWriteFor (id : Nat) : TMAction → Bool
  | .dbSaveTask j => j == id
  | .dbUpdateTask j => j == id
  | .emit _ => false

/-- The store write for task `id` happens at a strictly earlier trace
position than the emission of event `ev`. -/
def writeBeforeEmit (id : Nat) (ev : String) (acts : List TMAction) : Prop :=
  ∃ i j : Nat, i < j ∧ (∃ a, acts[i]? = some a ∧ isWriteFor id a = true) ∧
    acts[j]? = some (TMAction.emit ev)

theorem writeBeforeEmit_save (id : Nat) (ev : String) (l : List TMAction) :
    writeBeforeEmit id ev (TMAction.dbSaveTask id :: TMAction.emit ev :: l) :=
  ⟨0, 1, by omega, ⟨TMAction.dbSaveTask id, by simp, by simp [isWriteFor]⟩,
    by simp⟩

theorem writeBeforeEmit_upd (id : Nat) (ev : String) (l : List TMAction) :
    writeBeforeEmit id ev (TMAction.dbUpdateTask id :: TMAction.emit ev :: l) :=
  ⟨0, 1, by omega, ⟨TMAction.dbUpdateTask id, by simp, by simp [isWriteFor]⟩,
    by simp⟩

theorem writeBeforeEmit_upd2 (id : Nat) (ev : String) (a : TMAction)
    (l : List TMAction) :
    writeBeforeEmit id ev
      (TMAction.dbUpdateTask id :: a :: TMAction.emit ev :: l) :=
  ⟨0, 2, by omega, ⟨TMAction.dbUpdateTask id, by simp, by simp [isWriteFor]⟩,
    by simp⟩

/-- Claim C2: for every mutating TaskManager operation (`createTask`,
`updateTask`, `addStep`, `startStep`, `completeStep`, `failStep`,
`completeTask`, `failTask`) on a configured durable store, the store
write for the mutated task occurs in the action trace strictly before
the corresponding event emission (persist-then-notify). -/
theorem taskManager_persist_then_notify {α : Type} (s : TMState α)
    (hdb : s.dbConfigured = true) :
    (∀ title parent meta, writeBeforeEmit s.counter "task.created"
       (createTask s title parent meta).2.1) ∧
    (∀ t : Task α, writeBeforeEmit t.id "task.updated" (updateTask s t).2) ∧
    (∀ id desc st meta t, findTask s.tasks id = some t →
       ∃ st2 acts sid, addStep s id desc st meta = .ok (st2, acts, sid) ∧
         writeBeforeEmit t.id "task.step.added" acts) ∧
    (∀ id sid t st0, findTask s.tasks id = some t →
       t.steps.find? (fun x => x.id == sid) = some st0 →
       ∃ st2 acts, startStep s id sid = .ok (st2, acts) ∧
         writeBeforeEmit t.id "task.step.started" acts) ∧
    (∀ id sid v t st0, findTask s.tasks id = some t →
       t.steps.find? (fun x => x.id == sid) = some st0 →
       ∃ st2 acts, completeStep s id sid v = .ok (st2, acts) ∧
         writeBeforeEmit t.id "task.step.completed" acts) ∧
    (∀ id sid e t st0, findTask s.tasks id = some t →
       t.steps.find? (fun x => x.id == sid) = some st0 →
       ∃ st2 acts, failStep s id sid e = .ok (st2, acts) ∧
         writeBeforeEmit t.id "task.step.failed" acts) ∧
    (∀ id v t, findTask s.tasks id = some t →
       ∃ st2 acts, completeTask s id v = .ok (st2, acts) ∧
         writeBeforeEmit t.id "task.completed" acts) ∧
    (∀ id e t, findTask s.tasks id = some t →
       ∃ st2 acts, failTask s id e = .ok (st2, acts) ∧
         writeBeforeEmit t.id "task.failed" acts) := by
  refine ⟨?_, ?_, ?_, ?_, ?_, ?_, ?_, ?_⟩
  · intro title parent meta
    simp only [createTask, hdb, if_true]
    exact writeBeforeEmit_save _ _ _
  · intro t
    simp only [updateTask, hdb, if_true]
    exact writeBeforeEmit_upd _ _ _
  · intro id desc st meta t hfind
    simp only [addStep, hfind, updateTask, hdb, if_true,
      List.cons_append, List.nil_append]
    exact ⟨_, _, _, rfl, writeBeforeEmit_upd2 _ _ _ _⟩
  · intro id sid t st0 hfind hstep
    simp only [startStep, hfind, hstep, updateTask, hdb, if_true,
      List.cons_append, List.nil_append]
    exact ⟨_, _, rfl, writeBeforeEmit_upd2 _ _ _ _⟩
  · intro id sid v t st0 hfind hstep
    simp only [completeStep, hfind, hstep, updateTask, hdb, if_true,
      List.cons_append, List.nil_append]
    exact ⟨_, _, rfl, writeBeforeEmit_upd2 _ _ _ _⟩
  · intro id sid e t st0 hfind hstep
    simp only [failStep, hfind, hstep, updateTask, hdb, if_true,
      List.cons_append, List.nil_append]
    exact ⟨_, _, rfl, writeBeforeEmit_upd2 _ _ _ _⟩
  · intro id v t hfind
    simp only [completeTask, hfind, updateTask, hdb, if_true,
      List.cons_append, List.nil_append]
    exact ⟨_, _, rfl, writeBeforeEmit_upd2 _ _ _ _⟩
  · intro id e t hfind
    simp only [failTask, hfind, updateTask, hdb, if_true,
      List.cons_append, List.nil_append]
    exact ⟨_, _, rfl, writeBeforeEmit_upd2 _ _ _ _⟩

/-- Claim C2 witness: persist-then-notify at a concrete state
(`completeTask` on the sample running task with a configured store). -/
theorem taskManager_persist_then_notify_witness :
    ∃ st2 acts,
      completeTask (sampleState .running true) 0 (some 9) =
        .ok (st2, acts) ∧
      writeBeforeEmit 0 "task.completed" acts := by
  have h := (taskManager_persist_then_notify
    (sampleState .running true) rfl).2.2.2.2.2.2.1 0 (some 9)
    (sampleTask .running) rfl
  exact h

/-- Claim C4 counterexample: `completeTask` on a *pending* task yields
the transition pending→completed, which is outside the claimed set of
observable transitions (it skips pending→running), so the claim as
stated is false on the code: TaskManager does not guard transitions. -/
theorem completeTask_skips_running_cex :
    (getTask (sampleState .pending false) 0).map Task.status =
      some TStatus.pending ∧
    (completeTask (sampleState .pending false) 0 (some 7)).map
        (fun out => (getTask out.1 0).map Task.status) =
      .ok (some TStatus.completed) ∧
    allowedTransition TStatus.pending TStatus.completed = false :=
  ⟨rfl, rfl, rfl⟩

/-- Claim C4 (amended): TaskManager itself does not guard status
transitions — `completeTask`, `failTask` and `setStatus` assign their
target status unconditionally.  Under the calling discipline that
`completeTask`/`failTask` are only invoked on running tasks and
`setStatus` only for transitions in the allowed set, every observed
transition lies in {pending→running, running→completed, running→failed,
non-terminal→cancelled}; the step operations never change the enclosing
task's status, and `createTask` records a fresh task with status
pending. -/
theorem taskManager_guarded_transitions {α : Type} (s : TMState α)
    (id : Nat) (t : Task α) (h : findTask s.tasks id = some t)
    (hk : t.id = id) :
    (t.status = .running → ∀ v, ∃ st2 acts,
       completeTask s id v = .ok (st2, acts) ∧
       ∃ t2, getTask st2 id = some t2 ∧ t2.status = .completed ∧
         allowedTransition t.status t2.status = true) ∧
    (t.status = .running → ∀ e, ∃ st2 acts,
       failTask s id e = .ok (st2, acts) ∧
       ∃ t2, getTask st2 id = some t2 ∧ t2.status = .failed ∧
         allowedTransition t.status t2.status = true) ∧
    (∀ st, allowedTransition t.status st = true → ∃ st2 acts,
       setStatus s id st = .ok (st2, acts) ∧
       ∃ t2, getTask st2 id = some t2 ∧ t2.status = st ∧
         allowedTransition t.status t2.status = true) ∧
    (∀ sid st0, t.steps.find? (fun x => x.id == sid) = some st0 →
       ∃ st2 acts, startStep s id sid = .ok (st2, acts) ∧
         ∃ t2, getTask st2 id = some t2 ∧ t2.status = t.status) ∧
    (∀ desc stx meta, ∃ st2 acts sid,
       addStep s id desc stx meta = .ok (st2, acts, sid) ∧
       ∃ t2, getTask st2 id = some t2 ∧ t2.status = t.status) ∧
    (∀ sid v st0, t.steps.find? (fun x => x.id == sid) = some st0 →
       ∃ st2 acts, completeStep s id sid v = .ok (st2, acts) ∧
         ∃ t2, getTask st2 id = some t2 ∧ t2.status = t.status) ∧
    (∀ sid e st0, t.steps.find? (fun x => x.id == sid) = some st0 →
       ∃ st2 acts, failStep s id sid e = .ok (st2, acts) ∧
         ∃ t2, getTask st2 id = some t2 ∧ t2.status = t.status) ∧
    (∀ title parent meta, ∃ t2,
       getTask (createTask s title parent meta).1 s.counter = some t2 ∧
       t2.status = .pending) := by
  subst hk
  refine ⟨?_, ?_, ?_, ?_, ?_, ?_, ?_, ?_⟩
  · intro hrun v
    simp only [completeTask, h]
    refine ⟨_, _, rfl, _, findTask_setPair s.tasks t.id _, rfl, ?_⟩
    rw [hrun]
    rfl
  · intro hrun e
    simp only [failTask, h]
    refine ⟨_, _, rfl, _, findTask_setPair s.tasks t.id _, rfl, ?_⟩
    rw [hrun]
    rfl
  · intro st hall
    simp only [setStatus, h]
    exact ⟨_, _, rfl, _, findTask_setPair s.tasks t.id _, rfl, hall⟩
  · intro sid st0 hstep
    simp only [startStep, h, hstep]
    exact ⟨_, _, rfl, _, findTask_setPair s.tasks t.id _, rfl⟩
  · intro desc stx meta
    simp only [addStep, h]
    exact ⟨_, _, _, rfl, _, findTask_setPair s.tasks t.id _, rfl⟩
  · intro sid v st0 hstep
    simp only [completeStep, h, hstep]
    exact ⟨_, _, rfl, _, findTask_setPair s.tasks t.id _, rfl⟩
  · intro sid e st0 hstep
    simp only [failStep, h, hstep]
    exact ⟨_, _, rfl, _, findTask_setPair s.tasks t.id _, rfl⟩
  · intro title parent meta
    exact ⟨_, findTask_setPair s.tasks s.counter _, rfl⟩

/-- Claim C4 witness: the disciplined transition running→completed at a
concrete state. -/
theorem taskManager_guarded_transitions_witness :
    ∃ st2 acts,
      completeTask (sampleState .running false) 0 (some 4) =
        .ok (st2, acts) ∧
      ∃ t2, getTask st2 0 = some t2 ∧ t2.status = .completed ∧
        allowedTransition (sampleTask .running).status t2.status = true :=
  (taskManager_guarded_transitions (sampleState .running false) 0
    (sampleTask .running) rfl rfl).1 rfl (some 4)

/-! ## Claims about the ToolRunner (C3, C5) -/

/-- Claim C3: for every `ToolRunner.call` whose validator rejects the
proposed args: if a rectifier is configured and returns a proposal
containing args, the tool handler is invoked exactly once with exactly
the proposed args (the originals are discarded, never merged); if the
rectifier returns none (or no rectifier is configured), the call throws
before any handler invocation, so the handler call-count stays 0 and no
ToolRun record is persisted. -/
theorem toolRunner_rectify_replaces_args {γ ρ : Type}
    (V : String → γ → Option VRes) (R : String → γ → Option (RectRes γ))
    (handlers : String → Option (γ → Except String ρ))
    (db ts : Option Bool) (toolName : String) (args : γ)
    (hrej : rejectedBy (V toolName args) = true) :
    (∀ rect a h, R toolName args = some rect → rect.args = some a →
       handlers toolName = some h →
       (toolCall (some V) (some R) handlers db ts toolName args).2.1 = [a]) ∧
    ((R toolName args = none ∨
        ∃ rect, R toolName args = some rect ∧ rect.args = none) →
       (∃ e, (toolCall (some V) (some R) handlers db ts toolName args).1 =
          .error e) ∧
       (toolCall (some V) (some R) handlers db ts toolName args).2.1 = [] ∧
       ((toolCall (some V) (some R) handlers db ts toolName args).2.2.all
          (fun x => !isPersistRun x)) = true) ∧
    ((∃ e, (toolCall (some V) none handlers db ts toolName args).1 =
        .error e) ∧
     (toolCall (some V) none handlers db ts toolName args).2.1 = [] ∧
     ((toolCall (some V) none handlers db ts toolName args).2.2.all
        (fun x => !isPersistRun x)) = true) := by
  refine ⟨?_, ?_, ?_⟩
  · intro rect a h hR hargs hh
    cases hres : h a with
    | ok r =>
      cases db <;> cases ts <;>
        simp [toolCall, validatePhase, hrej, hR, hargs, hh, hres]
    | error m =>
      cases db <;> cases ts <;>
        simp [toolCall, validatePhase, hrej, hR, hargs, hh, hres]
  · intro hnone
    have htc : toolCall (some V) (some R) handlers db ts toolName args =
        (.error
          ("Tool call rejected by validator and rectifier could not fix: "
            ++ reasonStr (V toolName args)), [], []) := by
      rcases hnone with hR | ⟨rect, hR, hargs⟩
      · simp [toolCall, validatePhase, hrej, hR]
      · simp [toolCall, validatePhase, hrej, hR, hargs]
    rw [htc]
    exact ⟨⟨_, rfl⟩, rfl, rfl⟩
  · have htc : toolCall (some V) none handlers db ts toolName args =
        (.error
          ("Tool call rejected by validator: " ++ reasonStr (V toolName args)),
         [], []) := by
      simp [toolCall, validatePhase, hrej]
    rw [htc]
    exact ⟨⟨_, rfl⟩, rfl, rfl⟩

/-- Claim C3 witness: a rejected call whose rectifier proposes args `9`
runs the handler exactly once with `9`. -/
theorem toolRunner_rectify_replaces_args_witness :
    (toolCall (γ := Nat) (ρ := Nat)
      (some (fun _ _ => some { accepted := some false, reason := some "bad" }))
      (some (fun _ _ => some { args := some 9 }))
      (fun _ => some (fun a => .ok (a + 1)))
      none none "t" 5).2.1 = [9] :=
  (toolRunner_rectify_replaces_args
    (fun _ _ => some { accepted := some false, reason := some "bad" })
    (fun _ _ => some { args := some 9 })
    (fun _ => some (fun a => .ok (a + 1)))
    none none "t" 5 rfl).1 { args := some 9 } 9 (fun a => .ok (a + 1))
    rfl rfl rfl

/-- Claim C5: for every `ToolRunner.call` whose handler throws, the
handler is invoked exactly once (no retry), a ToolRun record with
`result = null` and `error` set to the exception message is persisted
(when a store is configured), a `"tool.error"` event is emitted, the
failure is re-raised to the caller, and a failure of the persistence or
transcript save itself never changes the call's outcome. -/
theorem toolRunner_handler_failure_protocol {γ ρ : Type}
    (validator : Option (String → γ → Option VRes))
    (rectifier : Option (String → γ → Option (RectRes γ)))
    (handlers : String → Option (γ → Except String ρ))
    (db ts : Option Bool) (toolName : String) (args args1 : γ)
    (h : γ → Except String ρ) (m : String)
    (hval : validatePhase validator rectifier toolName args = .ok args1)
    (hh : handlers toolName = some h)
    (herr : h args1 = .error m) :
    (toolCall validator rectifier handlers db ts toolName args).2.1 =
      [args1] ∧
    (toolCall validator rectifier handlers db ts toolName args).1 =
      .error m ∧
    TRAction.emit "tool.error" ∈
      (toolCall validator rectifier handlers db ts toolName args).2.2 ∧
    (∀ b, db = some b → TRAction.persistRun args1 none (some m) b ∈
       (toolCall validator rectifier handlers db ts toolName args).2.2) ∧
    (∀ db2 ts2,
       (toolCall validator rectifier handlers db2 ts2 toolName args).1 =
         .error m) := by
  refine ⟨?_, ?_, ?_, ?_, ?_⟩
  · cases db <;> cases ts <;> simp [toolCall, hval, hh, herr]
  · cases db <;> cases ts <;> simp [toolCall, hval, hh, herr]
  · cases db <;> cases ts <;> simp [toolCall, hval, hh, herr]
  · intro b hb
    subst hb
    cases ts <;> simp [toolCall, hval, hh, herr]
  · intro db2 ts2
    cases db2 <;> cases ts2 <;> simp [toolCall, hval, hh, herr]

/-- Claim C5 witness: a handler that throws `"boom"` is invoked once and
the failure is re-raised. -/
theorem toolRunner_handler_failure_protocol_witness :
    (toolCall (γ := Nat) (ρ := Nat) none none
      (fun _ => some (fun _ => .error "boom"))
      (some true) none "t" 5).1 = .error "boom" ∧
    (toolCall (γ := Nat) (ρ := Nat) none none
      (fun _ => some (fun _ => .error "boom"))
      (some true) none "t" 5).2.1 = [5] := by
  have h := toolRunner_handler_failure_protocol (γ := Nat) (ρ := Nat)
    none none (fun _ => some (fun _ => .error "boom"))
    (some true) none "t" 5 5 (fun _ => .error "boom") "boom" rfl rfl rfl
  exact ⟨h.2.1, h.1⟩

/-! ## Claim about the validator factory (C6) -/

/-- Claim C6: for every `validateToolCall` input that passes the static
rules, if the secondary LLM judgment pass returns a response whose text
is missing, empty, or unparseable as JSON with a boolean `accepted`
field, or the pass itself throws, the validator returns
`accepted = true` (fail-open). -/
theorem validator_judgment_fail_open
    (f : String → Except String OResp)
    (parseAccepted : String → Option JudgeRes)
    (stringifyArgs : VArgs → String) (toolName : String) (args : VArgs)
    (h1 : ¬toolName = "")
    (h2 : ¬(args.sideEffect = true ∧ args.allowSideEffects ≠ true))
    (h3 : ¬(toolName = "apply_patch" ∧ args.patch = ""))
    (hbad : (∃ e, f (judgePrompt stringifyArgs toolName args) = .error e) ∨
       ∃ resp, f (judgePrompt stringifyArgs toolName args) = .ok resp ∧
         (resp.text = none ∨ resp.text = some "" ∨
          ∃ txt, resp.text = some txt ∧ parseAccepted txt = none)) :
    (validateToolCall (some f) parseAccepted stringifyArgs toolName
      args).accepted = true := by
  unfold validateToolCall
  rw [if_neg h1, if_neg h2, if_neg h3]
  rcases hbad with ⟨e, he⟩ | ⟨resp, hresp, hcase⟩
  · simp [he]
  · rcases hcase with ht | ht | ⟨txt, ht, hp⟩
    · simp [hresp, ht]
    · simp [hresp, ht]
    · by_cases htxt : txt = ""
      · simp [hresp, ht, htxt]
      · simp [hresp, ht, htxt, hp]

/-- Claim C6 witness: a statically acceptable call whose judgment pass
throws is accepted. -/
theorem validator_judgment_fail_open_witness :
    (validateToolCall (some (fun _ => .error "oracle down")) (fun _ => none)
      (fun _ => "args") "list_files"
      { sideEffect := false, allowSideEffects := false, patch := "" }
      ).accepted = true :=
  validator_judgment_fail_open (fun _ => .error "oracle down")
    (fun _ => none) (fun _ => "args") "list_files"
    { sideEffect := false, allowSideEffects := false, patch := "" }
    (by decide) (by decide) (by decide) (Or.inl ⟨"oracle down", rfl⟩)

/-! ## Claim about the EventBus (C7) -/

theorem map_const_false {τ : Type} (l : List τ) :
    l.map (fun _ => false) = List.replicate l.length false := by
  induction l with
  | nil => rfl
  | cons x xs ih => simp [List.replicate, ih]

theorem eeEmit_fst {π : Type} (subs : List (π → Except String Unit))
    (p : π) : (eeEmit subs p).1 = deliveredSpec subs p := by
  induction subs with
  | nil => rfl
  | cons f fs ih =>
    cases hf : f p with
    | error e =>
      simp only [eeEmit, hf]
      simp [deliveredSpec, firstThrow, hf, exOk, map_const_false,
        List.replicate_succ]
    | ok u =>
      simp only [eeEmit, hf]
      simp only [deliveredSpec, firstThrow, hf, exOk, if_true]
      cases hft : firstThrow fs p with
      | none =>
        rw [ih, deliveredSpec, hft]
        simp [hft, List.replicate_succ]
      | some k =>
        rw [ih, deliveredSpec, hft]
        have hlen : fs.length + 1 - (k + 1 + 1) = fs.length - (k + 1) := by
          omega
        simp [hft, List.replicate_succ, hlen]

/-- Claim C7 counterexample: with two subscribers registered for the
same event name, the first of which throws, `emitPersisted` itself
succeeds but the second subscriber is never invoked (its delivery flag
is `false`): Node's `EventEmitter.emit` stops at the first throwing
listener and the try/catch in `emitPersisted` only protects the call,
not delivery to the remaining subscribers.  This refutes the claim that
a throwing subscriber does not prevent delivery to the other
subscribers. -/
theorem emitPersisted_throwing_subscriber_cex :
    emitPersisted none none
      [fun _ => .error "boom", fun _ => .ok ()] () =
      .ok { dbSaved := none, transcriptSaved := none,
            delivered := [true, false] } ∧
    ((eeEmit [fun _ => Except.error "boom", fun _ => Except.ok ()]
        ()).1.getD 1 true) = false :=
  ⟨rfl, rfl⟩

/-- Claim C7 (amended): `emitPersisted` itself never fails — neither a
`saveEvent`/transcript persistence failure nor a throwing subscriber
aborts the emitting call — and the event is delivered, in registration
order, to every subscriber up to and including the first one that
throws; a throwing subscriber does prevent delivery to the subscribers
registered after it. -/
theorem emitPersisted_never_fails_delivery_order {π : Type}
    (db ss : Option (Except String Unit))
    (subs : List (π → Except String Unit)) (p : π) :
    emitPersisted db ss subs p =
      .ok { dbSaved := db.map exOk, transcriptSaved := ss.map exOk,
            delivered := deliveredSpec subs p } := by
  simp [emitPersisted, eeEmit_fst]

/-! ## Claims about the WorkflowEngine (C1, C8, C10) -/

theorem waitDep_ok {env : Nat → String → Option TStatus}
    {start timeoutMs : Nat} {d : String} :
    ∀ fuel t t1, waitDep env start timeoutMs d fuel t = .ok t1 →
      env t1 d = none ∨ env t1 d = some .completed := by
  intro fuel
  induction fuel with
  | zero =>
    intro t t1 h
    simp only [waitDep] at h
    cases henv : env t d with
    | none =>
      simp only [henv] at h
      cases h
      exact Or.inl henv
    | some st =>
      cases st with
      | pending =>
        simp only [henv] at h
        split at h <;> exact Except.noConfusion h
      | running =>
        simp only [henv] at h
        split at h <;> exact Except.noConfusion h
      | cancelled =>
        simp only [henv] at h
        split at h <;> exact Except.noConfusion h
      | completed =>
        simp only [henv] at h
        cases h
        exact Or.inr henv
      | failed =>
        simp only [henv] at h
        exact Except.noConfusion h
  | succ n ih =>
    intro t t1 h
    simp only [waitDep] at h
    cases henv : env t d with
    | none =>
      simp only [henv] at h
      cases h
      exact Or.inl henv
    | some st =>
      cases st with
      | pending =>
        simp only [henv] at h
        split at h
        · exact Except.noConfusion h
        · exact ih _ _ h
      | running =>
        simp only [henv] at h
        split at h
        · exact Except.noConfusion h
        · exact ih _ _ h
      | cancelled =>
        simp only [henv] at h
        split at h
        · exact Except.noConfusion h
        · exact ih _ _ h
      | completed =>
        simp only [henv] at h
        cases h
        exact Or.inr henv
      | failed =>
        simp only [henv] at h
        exact Except.noConfusion h

theorem waitDep_failed {env : Nat → String → Option TStatus}
    (start timeoutMs : Nat) (d : String) (fuel t : Nat)
    (h : ∀ u, env u d = some .failed) :
    waitDep env start timeoutMs d fuel t =
      .error ("Dependency " ++ d ++ " failed") := by
  cases fuel <;> simp only [waitDep, h t]

theorem waitForDeps_ok_mem {env : Nat → String → Option TStatus}
    {start timeoutMs : Nat} :
    ∀ deps fuel t t2,
      waitForDeps env start timeoutMs deps fuel t = .ok t2 →
      ∀ d ∈ deps, ∃ t1, env t1 d = none ∨ env t1 d = some .completed := by
  intro deps
  induction deps with
  | nil => simp
  | cons d0 ds ih =>
    intro fuel t t2 h d hd
    simp only [waitForDeps] at h
    cases hw : waitDep env start timeoutMs d0 fuel t with
    | error e => rw [hw] at h; cases h
    | ok t1 =>
      rw [hw] at h
      rcases List.mem_cons.mp hd with rfl | hd2
      · exact ⟨t1, waitDep_ok fuel t t1 hw⟩
      · exact ih fuel t1 t2 h d hd2

theorem waitForDeps_failed_mem {env : Nat → String → Option TStatus}
    (start timeoutMs : Nat) (A : String)
    (hA : ∀ u, env u A = some .failed) :
    ∀ l1 l2 fuel t, ∃ e,
      waitForDeps env start timeoutMs (l1 ++ A :: l2) fuel t = .error e := by
  intro l1
  induction l1 with
  | nil =>
    intro l2 fuel t
    refine ⟨"Dependency " ++ A ++ " failed", ?_⟩
    simp only [List.nil_append, waitForDeps,
      waitDep_failed start timeoutMs A fuel t hA]
  | cons d0 ds ih =>
    intro l2 fuel t
    simp only [List.cons_append, waitForDeps]
    cases hw : waitDep env start timeoutMs d0 fuel t with
    | error e => exact ⟨e, rfl⟩
    | ok t1 => exact ih l2 fuel t1

theorem waitForDeps_prefix_ok_failed {env : Nat → String → Option TStatus}
    (start timeoutMs : Nat) (A : String) (l2 : List String)
    (hA : ∀ u, env u A = some .failed) :
    ∀ l1 fuel t t1,
      waitForDeps env start timeoutMs l1 fuel t = .ok t1 →
      waitForDeps env start timeoutMs (l1 ++ A :: l2) fuel t =
        .error ("Dependency " ++ A ++ " failed") := by
  intro l1
  induction l1 with
  | nil =>
    intro fuel t t1 _
    simp only [List.nil_append, waitForDeps,
      waitDep_failed start timeoutMs A fuel t hA]
  | cons d0 ds ih =>
    intro fuel t t1 h
    simp only [waitForDeps, List.cons_append] at h ⊢
    cases hw : waitDep env start timeoutMs d0 fuel t with
    | error e =>
      rw [hw] at h
      exact Except.noConfusion h
    | ok tm =>
      rw [hw] at h
      exact ih fuel tm t1 h

/-- Claim C1 counterexample: unit "b" depends on both "c" and "a"
(in that order) and both dependencies have failed; taking A := "a" in
the claim, "b"'s promise rejects with the error naming "c" — the first
failed dependency in list order — not "a", so the claim's "rejects with
a dependency-failed error naming A" is false as universally stated. -/
theorem depFailed_error_names_first_failed :
    ("a" ∈ ["c", "a"]) ∧
    (∀ u, (fun _ d => if d = "a" ∨ d = "c" then some TStatus.failed
      else none : Nat → String → Option TStatus) u "a" =
        some TStatus.failed) ∧
    runUnit (fun _ d => if d = "a" ∨ d = "c" then some TStatus.failed
        else none)
      120000 5 ["c", "a"] (fun _ => .ok (0 : Nat)) 2 =
      (.error "Dependency c failed", 0, []) ∧
    ("Dependency c failed" ≠ "Dependency a failed") := by
  refine ⟨by simp, fun u => rfl, rfl, by decide⟩

/-- Claim C1 (amended): for units A, B where B's dependsOn list contains
A and A is tracked by the TaskManager, B's function is never invoked
unless A was observed with status completed; if A's status is failed,
B's scheduleTask promise rejects and B's function is never invoked —
with the rejection carrying the dependency-failed error naming A itself
whenever the dependencies listed before A have been awaited successfully
(otherwise the error may name an earlier failed dependency, or be a
timeout of an earlier wait). -/
theorem scheduleTask_dependency_fail_fast {ρ : Type}
    (env : Nat → String → Option TStatus) (timeoutMs fuel retries : Nat)
    (ds1 ds2 : List String) (A : String) (fn : Nat → Except String ρ) :
    ((∀ u, env u A ≠ none) →
       0 < (runUnit env timeoutMs fuel (ds1 ++ A :: ds2) fn retries).2.1 →
       ∃ u, env u A = some .completed) ∧
    ((∀ u, env u A = some .failed) →
       (runUnit env timeoutMs fuel (ds1 ++ A :: ds2) fn retries).2.1 = 0 ∧
       ∃ e, (runUnit env timeoutMs fuel (ds1 ++ A :: ds2) fn retries).1 =
         .error e) ∧
    ((∀ u, env u A = some .failed) →
       ∀ t1, waitForDeps env 0 timeoutMs ds1 fuel 0 = .ok t1 →
       runUnit env timeoutMs fuel (ds1 ++ A :: ds2) fn retries =
         (.error ("Dependency " ++ A ++ " failed"), 0, [])) := by
  refine ⟨?_, ?_, ?_⟩
  · intro htr hpos
    unfold runUnit at hpos
    cases hw : waitForDeps env 0 timeoutMs (ds1 ++ A :: ds2) fuel 0 with
    | error e => rw [hw] at hpos; simp at hpos
    | ok t2 =>
      have hmem : A ∈ ds1 ++ A :: ds2 :=
        List.mem_append_right ds1 (List.mem_cons_self A ds2)
      rcases waitForDeps_ok_mem (ds1 ++ A :: ds2) fuel 0 t2 hw A hmem with
        ⟨t1, hnone | hcomp⟩
      · exact absurd hnone (htr t1)
      · exact ⟨t1, hcomp⟩
  · intro hA
    obtain ⟨e, he⟩ :=
      waitForDeps_failed_mem 0 timeoutMs A hA ds1 ds2 fuel 0
    unfold runUnit
    rw [he]
    exact ⟨rfl, e, rfl⟩
  · intro hA t1 h1
    unfold runUnit
    rw [waitForDeps_prefix_ok_failed 0 timeoutMs A ds2 hA ds1 fuel 0 t1 h1]

/-- Claim C1 witness: a unit whose single dependency has failed rejects
with the dependency-failed error naming it, invoking its function zero
times. -/
theorem scheduleTask_dependency_fail_fast_witness :
    runUnit (fun _ _ => some TStatus.failed) 1000 5 ["a"]
      (fun _ => .ok (1 : Nat)) 2 =
      (.error "Dependency a failed", 0, []) := by
  have h := (scheduleTask_dependency_fail_fast
    (fun _ _ => some TStatus.failed) 1000 5 2 [] [] "a"
    (fun _ => .ok (1 : Nat))).2.2 (fun u => rfl) 0 rfl
  simpa using h

theorem withRetryGo_allFail {ρ : Type} (fn : Nat → Except String ρ)
    (b : Nat) (E : Nat → String) (hf : ∀ j, fn j = .error (E j)) :
    ∀ r k, withRetryGo fn b r k =
      (.error (E (k + r)), k + r + 1,
       (List.range' k r).map (fun j => b * 2 ^ j)) := by
  intro r
  induction r with
  | zero =>
    intro k
    simp [withRetryGo, hf k]
  | succ n ih =>
    intro k
    simp only [withRetryGo, hf k]
    rw [ih (k + 1)]
    have h1 : k + 1 + n = k + (n + 1) := by omega
    simp [List.range', h1]

theorem withRetryGo_success {ρ : Type} (fn : Nat → Except String ρ)
    (b : Nat) (i : Nat) (a : ρ) (hi : fn i = .ok a)
    (hbefore : ∀ j, j < i → exOk (fn j) = false) :
    ∀ r k, k ≤ i → i ≤ k + r →
      (withRetryGo fn b r k).1 = .ok a ∧
      (withRetryGo fn b r k).2.1 = i + 1 := by
  intro r
  induction r with
  | zero =>
    intro k hk hk2
    have hki : k = i := by omega
    subst hki
    simp [withRetryGo, hi]
  | succ n ih =>
    intro k hk hk2
    by_cases hki : k = i
    · subst hki
      simp [withRetryGo, hi]
    · have hklt : k < i := lt_of_le_of_ne hk hki
      have hf : exOk (fn k) = false := hbefore k hklt
      cases hfk : fn k with
      | ok v => rw [hfk] at hf; simp [exOk] at hf
      | error e =>
        simp only [withRetryGo, hfk]
        exact ih (k + 1) hklt (by omega)

/-- Claim C8: for every unit scheduled with `retries = r` whose
dependency wait succeeds: if its function keeps failing it is invoked
`1 + r` times in total, the loop sleeping `500·2^(k−1)` ms after the
k-th failure (backoffMs = 500, as `scheduleTask` passes), and the final
error is surfaced to the caller; a success on attempt `i` (after `i`
failures, `i ≤ r`) returns that result immediately with `i + 1`
invocations in total. -/
theorem withRetry_backoff_schedule {ρ : Type}
    (env : Nat → String → Option TStatus) (timeoutMs fuel : Nat)
    (deps : List String) (fn : Nat → Except String ρ) (r : Nat)
    (t1 : Nat) (hwait : waitForDeps env 0 timeoutMs deps fuel 0 = .ok t1) :
    (∀ E : Nat → String, (∀ j, fn j = .error (E j)) →
       runUnit env timeoutMs fuel deps fn r =
         (.error (E r), r + 1,
          (List.range' 0 r).map (fun j => 500 * 2 ^ j))) ∧
    (∀ i a, i ≤ r → fn i = .ok a → (∀ j, j < i → exOk (fn j) = false) →
       (runUnit env timeoutMs fuel deps fn r).1 = .ok a ∧
       (runUnit env timeoutMs fuel deps fn r).2.1 = i + 1) := by
  constructor
  · intro E hE
    unfold runUnit
    rw [hwait]
    unfold withRetry
    rw [withRetryGo_allFail fn 500 E hE r 0]
    simp
  · intro i a hir hi hbefore
    unfold runUnit
    rw [hwait]
    unfold withRetry
    exact withRetryGo_success fn 500 i a hi hbefore r 0 (Nat.zero_le i)
      (by omega)

/-- Claim C8 witness: retries = 2 with an always-failing function gives
3 invocations, backoff delays 500 and 1000 ms, and surfaces the final
error. -/
theorem withRetry_backoff_schedule_witness :
    runUnit (fun _ _ => none) 1000 3 [] (fun _ => .error "x")
      (ρ := Nat) 2 = (.error "x", 3, [500, 1000]) := by
  have h := (withRetry_backoff_schedule (ρ := Nat) (fun _ _ => none)
    1000 3 [] (fun _ => .error "x") 2 0 rfl).1 (fun _ => "x")
    (fun j => rfl)
  simpa using h

theorem waitForDeps_skip_unknown {env : Nat → String → Option TStatus}
    (d : String) (h : ∀ u, env u d = none) (timeoutMs : Nat)
    (ds2 : List String) :
    ∀ ds1 fuel start t,
      waitForDeps env start timeoutMs (ds1 ++ d :: ds2) fuel t =
        waitForDeps env start timeoutMs (ds1 ++ ds2) fuel t := by
  intro ds1
  induction ds1 with
  | nil =>
    intro fuel start t
    simp only [List.nil_append, waitForDeps]
    rw [show waitDep env start timeoutMs d fuel t = .ok t from by
      cases fuel <;> simp only [waitDep, h t]]
  | cons d0 ds ih =>
    intro fuel start t
    simp only [List.cons_append, waitForDeps]
    cases hw : waitDep env start timeoutMs d0 fuel t with
    | error e => rfl
    | ok t1 => exact ih fuel start t1

/-- Claim C10: for every scheduled unit, any id in its dependsOn list
for which `taskManager.getTask` returns no task is silently treated as a
satisfied dependency: its wait returns immediately (no blocking, no
timeout, no failure) and the unit behaves exactly as if that dependency
were absent, so its function is invoked as if the dependency had
completed. -/
theorem unknown_dependency_skipped {ρ : Type}
    (env : Nat → String → Option TStatus) (d : String)
    (h : ∀ u, env u d = none) (timeoutMs fuel retries : Nat)
    (ds1 ds2 : List String) (fn : Nat → Except String ρ) :
    (∀ start t, waitDep env start timeoutMs d fuel t = .ok t) ∧
    (∀ start t,
       waitForDeps env start timeoutMs (ds1 ++ d :: ds2) fuel t =
         waitForDeps env start timeoutMs (ds1 ++ ds2) fuel t) ∧
    runUnit env timeoutMs fuel (ds1 ++ d :: ds2) fn retries =
      runUnit env timeoutMs fuel (ds1 ++ ds2) fn retries := by
  refine ⟨?_, ?_, ?_⟩
  · intro start t
    cases fuel <;> simp only [waitDep, h t]
  · intro start t
    exact waitForDeps_skip_unknown d h timeoutMs ds2 ds1 fuel start t
  · unfold runUnit
    rw [waitForDeps_skip_unknown d h timeoutMs ds2 ds1 fuel 0 0]

/-- Claim C10 witness: a unit depending only on an untracked id runs its
function exactly as the dependency-free unit does. -/
theorem unknown_dependency_skipped_witness :
    runUnit (fun _ _ => none) 100 3 ["ghost"] (fun _ => .ok (5 : Nat)) 1 =
      runUnit (fun _ _ => none) 100 3 [] (fun _ => .ok (5 : Nat)) 1 := by
  have h := (unknown_dependency_skipped (ρ := Nat) (fun _ _ => none)
    "ghost" (fun u => rfl) 100 3 1 [] [] (fun _ => .ok (5 : Nat))).2.2
  simpa using h

end Kryonex
